import Mathlib

/-!
Verification of the natural-language request interpreter and schema-driven
resource-configuration generator of the mcp-ccpi repository.

The Python sources are shallowly embedded as executable Lean definitions:

* namespace App models src/app/llm_interface.py (LLMInterface.parse_request,
  LLMInterface.generate_resource_config, LLMInterface.generate_response);
* namespace Ccapi models src/mcp-ccapi/app/llm_interface.py and the
  schema-consumer logic of src/mcp-ccapi/app/schema_manager.py
  (validate_resource_config, generate_resource_template,
  _generate_default_value).

Python dictionaries are modelled as insertion-ordered association lists with
Python's update-in-place semantics (dictSet).  Python regular-expression
searches are modelled by a small backtracking matcher (reMatch) over a fixed
token alphabet that covers exactly the character-class constructs used by the
source patterns; searching is leftmost, repetition is greedy with
backtracking, and alternation is tried in written order, as in Python's re.
The matcher carries a fuel argument that bounds recursion depth; the fuel
supplied by the wrappers is far larger than the backtracking depth any of the
embedded patterns can reach on the given input.  Character semantics are
ASCII, matching the ASCII texts the source manipulates (Python's str.lower
and the \w class are Unicode-aware; Char.toLower is the ASCII restriction).
Python's json.loads is modelled by jsonParse, a strict JSON reader in which
numbers are restricted to integers (the only numeric literals the embedded
code paths produce).  External collaborators (the schema store and the
execution backend) are modelled as explicit parameters, following the spec's
component boundary: schema availability is an Option, and schema content is
the extracted property-name/required/identifier data the source reads from it.
-/

/-- JSON-like values, the payloads of Python dicts in the source. -/
inductive Value where
  | str : String → Value
  | num : Int → Value
  | bool : Bool → Value
  | null : Value
  | arr : List Value → Value
  | obj : List (String × Value) → Value

/-- Ordered-dictionary lookup (Python d.get(k)). -/
def dictGet (d : List (String × Value)) (k : String) : Option Value :=
  match d with
  | [] => none
  | kv :: rest => if kv.1 = k then some kv.2 else dictGet rest k

/-- Ordered-dictionary write (Python d[k] = v): overwrite in place if the key
exists, otherwise append, preserving insertion order. -/
def dictSet (d : List (String × Value)) (k : String) (v : Value) : List (String × Value) :=
  match d with
  | [] => [(k, v)]
  | kv :: rest => if kv.1 = k then (k, v) :: rest else kv :: dictSet rest k v

/-- Python d.update(kvs): sequential writes in iteration order. -/
def dictUpdate (d : List (String × Value)) (kvs : List (String × Value)) : List (String × Value) :=
  kvs.foldl (fun acc kv => dictSet acc kv.1 kv.2) d

/-- Characters written via code points so that quote and brace characters
never appear literally in the file. -/
def dquoteChar : Char := Char.ofNat 34

def squoteChar : Char := Char.ofNat 39

def lbraceChar : Char := Char.ofNat 123

def rbraceChar : Char := Char.ofNat 125

def backslashChar : Char := Char.ofNat 92

def slashChar : Char := Char.ofNat 47

/-- Python regex \w (ASCII restriction): letters, digits, underscore. -/
def isWordChar (c : Char) : Bool :=
  c.isAlpha || c.isDigit || c = '_'

/-- Python regex \s: space, tab, newline, carriage return, vertical tab, form feed. -/
def isPySpace (c : Char) : Bool :=
  c = ' ' || c = '\t' || c = '\n' || c = '\r' || c = Char.ofNat 11 || c = Char.ofNat 12

/-- The class [\"'] used for optional quotes in the source patterns. -/
def isQuoteChar (c : Char) : Bool :=
  c = dquoteChar || c = squoteChar

/-- The class [a-zA-Z0-9-_] of resource-name characters. -/
def isNameChar (c : Char) : Bool :=
  c.isAlpha || c.isDigit || c = '-' || c = '_'

/-- The class [a-zA-Z0-9-_:/] of identifier characters (ARN friendly). -/
def isIdentChar (c : Char) : Bool :=
  isNameChar c || c = ':' || c = slashChar

/-- The class [^,\"'] of generic key:value property values. -/
def isKvValueChar (c : Char) : Bool :=
  !(c = ',' || c = dquoteChar || c = squoteChar)

/-- The class [\w.-] used by the schema-driven property patterns. -/
def isDotWordChar (c : Char) : Bool :=
  isWordChar c || c = '.' || c = '-'

/-- The class [:\s] separating a property name from its value. -/
def isColonSpace (c : Char) : Bool :=
  c = ':' || isPySpace c

/-- ASCII lower-casing of a character list (Python str.lower on ASCII text). -/
def lowerChars (cs : List Char) : List Char :=
  cs.map Char.toLower

/-- Python str.strip(): remove leading and trailing whitespace. -/
def stripChars (cs : List Char) : List Char :=
  ((cs.dropWhile isPySpace).reverse.dropWhile isPySpace).reverse

/-- Match a literal character sequence at the head of the input, returning the
remainder on success. -/
def matchLit : List Char → List Char → Option (List Char)
  | [], l => some l
  | _ :: _, [] => none
  | p :: ps, c :: cs => if p = c then matchLit ps cs else none

/-- A position is a word boundary against the neighbouring character
(none at the ends of the text).  All keywords start and end with word
characters, so \b reduces to the neighbour not being a word character. -/
def isBoundaryChar : Option Char → Bool
  | none => true
  | some c => !isWordChar c

/-- Whole-word occurrence of kw starting exactly here (with the previous
character supplied), as matched by \bkw\b. -/
def wordAtHere (kw : List Char) (prev : Option Char) (l : List Char) : Bool :=
  isBoundaryChar prev &&
    (match matchLit kw l with
     | some rest => isBoundaryChar rest.head?
     | none => false)

/-- Whole-word search for kw anywhere in the text (Python
re.search of a \b(... )\b alternative). -/
def wordSearchFrom (kw : List Char) (prev : Option Char) : List Char → Bool
  | [] => wordAtHere kw prev []
  | l@(c :: cs) => wordAtHere kw prev l || wordSearchFrom kw (some c) cs

def wordSearch (kw : String) (cs : List Char) : Bool :=
  wordSearchFrom kw.data none cs

/-- re.search of \b(kw1|kw2|...)\b: some alternative occurs as a whole word. -/
def anyWordSearch (kws : List String) (cs : List Char) : Bool :=
  kws.any (fun kw => wordSearch kw cs)

/-- Tokens of the pattern mini-language: exactly the constructs appearing in
the source's regular expressions.  Repetition operators range over
single-character classes; alternation ranges over literal strings; group is a
capturing one-or-more repetition; altsGroup is a capturing alternation. -/
inductive Tok where
  | lits : List Char → Tok
  | cls : (Char → Bool) → Tok
  | opt : (Char → Bool) → Tok
  | star : (Char → Bool) → Tok
  | plus : (Char → Bool) → Tok
  | group : (Char → Bool) → Tok
  | alts : List (List Char) → Tok
  | altsGroup : List (List Char) → Tok

/-- Result of matching a token sequence at the head of the input: the list of
captured groups in order, and the remaining input after the match. -/
abbrev MatchRes := Option (List (List Char) × List Char)

mutual

/-- Backtracking matcher for a token sequence anchored at the head of the
input, with Python re's strategy: greedy repetitions that give back on
failure, alternatives in written order.  The fuel bounds recursion depth. -/
def reMatch : Nat → List Tok → List Char → MatchRes
  | 0, _, _ => none
  | _ + 1, [], l => some ([], l)
  | n + 1, t :: ts, l =>
    match t with
    | .lits s =>
      match matchLit s l with
      | some rest => reMatch n ts rest
      | none => none
    | .cls p =>
      match l with
      | [] => none
      | c :: cs => if p c then reMatch n ts cs else none
    | .opt p =>
      match l with
      | [] => reMatch n ts l
      | c :: cs =>
        if p c then
          match reMatch n ts cs with
          | some r => some r
          | none => reMatch n ts l
        else reMatch n ts l
    | .star p => tryLens n false ts l ((l.takeWhile p).length) 0
    | .plus p => tryLens n false ts l ((l.takeWhile p).length) 1
    | .group p => tryLens n true ts l ((l.takeWhile p).length) 1
    | .alts ss => tryAlts n false ts l ss
    | .altsGroup ss => tryAlts n true ts l ss

/-- Greedy repetition over a class: try consuming k characters (initially the
maximal run), backing off one character at a time down to minLen.  When
capturing, the consumed run is recorded as a group. -/
def tryLens : Nat → Bool → List Tok → List Char → Nat → Nat → MatchRes
  | 0, _, _, _, _, _ => none
  | n + 1, capture, ts, l, k, minLen =>
    if k < minLen then none
    else
      match reMatch n ts (l.drop k) with
      | some (caps, rest) => some (if capture then l.take k :: caps else caps, rest)
      | none =>
        match k with
        | 0 => none
        | k' + 1 => tryLens n capture ts l k' minLen

/-- Ordered alternation over literal strings, backtracking into later
alternatives when the rest of the pattern fails. -/
def tryAlts : Nat → Bool → List Tok → List Char → List (List Char) → MatchRes
  | 0, _, _, _, _ => none
  | n + 1, capture, ts, l, ss =>
    match ss with
    | [] => none
    | s :: rest =>
      match matchLit s l with
      | some r =>
        (match reMatch n ts r with
         | some (caps, rest') => some (if capture then s :: caps else caps, rest')
         | none => tryAlts n capture ts l rest)
      | none => tryAlts n capture ts l rest

end

/-- Fuel ample for the bounded backtracking of the embedded patterns. -/
def engineFuel (ts : List Tok) (l : List Char) : Nat :=
  (l.length + 16) * (ts.length + 16)

/-- re.search: try the anchored match at every position, leftmost first;
return the captures and the input remaining after the match. -/
def reSearchRest (ts : List Tok) : List Char → MatchRes
  | [] => reMatch (engineFuel ts []) ts []
  | l@(_ :: cs) =>
    match reMatch (engineFuel ts l) ts l with
    | some r => some r
    | none => reSearchRest ts cs

/-- re.search keeping only the first captured group. -/
def reSearchCapture (ts : List Tok) (l : List Char) : Option (List Char) :=
  match reSearchRest ts l with
  | some (cap :: _, _) => some cap
  | _ => none

/-- re.finditer: repeated leftmost search, resuming after each
(non-empty) match; fuel bounds the number of matches. -/
def reFindIterFrom : Nat → List Tok → List Char → List (List (List Char))
  | 0, _, _ => []
  | n + 1, ts, l =>
    match reSearchRest ts l with
    | some (caps, rest) =>
      if rest.length < l.length then caps :: reFindIterFrom n ts rest
      else [caps]
    | none => []

def reFindIter (ts : List Tok) (l : List Char) : List (List (List Char)) :=
  reFindIterFrom (l.length + 1) ts l

/-- JSON whitespace. -/
def skipJsonWs (l : List Char) : List Char :=
  l.dropWhile (fun c => c = ' ' || c = '\t' || c = '\n' || c = '\r')

/-- Digits to a natural number. -/
def digitsToNat (ds : List Char) : Nat :=
  ds.foldl (fun a c => a * 10 + (c.toNat - 48)) 0

/-- JSON number parser, restricted to integers: fractions and exponents are
outside the model (the embedded code paths never produce them). -/
def parseJsonNumber (l : List Char) : Option (Value × List Char) :=
  let (neg, l1) :=
    match l with
    | c :: cs => if c = '-' then (true, cs) else (false, l)
    | [] => (false, l)
  let digits := l1.takeWhile Char.isDigit
  let rest := l1.drop digits.length
  if digits.isEmpty then none
  else if digits.length > 1 && digits.head? = some '0' then none
  else
    let bad :=
      match rest with
      | c :: _ => c = '.' || c = 'e' || c = 'E'
      | [] => false
    if bad then none
    else
      let n : Int := Int.ofNat (digitsToNat digits)
      some (Value.num (if neg then -n else n), rest)

mutual

/-- Python json.loads, modelled as a strict recursive-descent reader (fuel
bounds recursion depth; \u escapes and non-integer numbers are outside the
model). -/
def parseJsonValue : Nat → List Char → Option (Value × List Char)
  | 0, _ => none
  | n + 1, l =>
    let l' := skipJsonWs l
    match l' with
    | [] => none
    | c :: cs =>
      if c = lbraceChar then parseJsonMembers n cs [] true
      else if c = '[' then parseJsonElems n cs [] true
      else if c = dquoteChar then
        (parseJsonStr n cs []).map (fun p => (Value.str p.1, p.2))
      else if c = 't' then (matchLit "rue".data cs).map (fun r => (Value.bool true, r))
      else if c = 'f' then (matchLit "alse".data cs).map (fun r => (Value.bool false, r))
      else if c = 'n' then (matchLit "ull".data cs).map (fun r => (Value.null, r))
      else parseJsonNumber l'

/-- Object members after the opening brace; duplicate keys overwrite in place
as in a Python dict. -/
def parseJsonMembers : Nat → List Char → List (String × Value) → Bool → Option (Value × List Char)
  | 0, _, _, _ => none
  | n + 1, l, acc, first =>
    let l' := skipJsonWs l
    match l' with
    | [] => none
    | c :: cs =>
      if c = rbraceChar && first then some (Value.obj acc, cs)
      else if c = dquoteChar then
        match parseJsonStr n cs [] with
        | none => none
        | some (k, r1) =>
          match skipJsonWs r1 with
          | ':' :: r2 =>
            match parseJsonValue n r2 with
            | none => none
            | some (v, r3) =>
              match skipJsonWs r3 with
              | c2 :: r4 =>
                if c2 = ',' then parseJsonMembers n r4 (dictSet acc k v) false
                else if c2 = rbraceChar then some (Value.obj (dictSet acc k v), r4)
                else none
              | [] => none
          | _ => none
      else none

/-- Array elements after the opening bracket. -/
def parseJsonElems : Nat → List Char → List Value → Bool → Option (Value × List Char)
  | 0, _, _, _ => none
  | n + 1, l, acc, first =>
    let l' := skipJsonWs l
    match l' with
    | [] => none
    | c :: cs =>
      if c = ']' && first then some (Value.arr acc.reverse, cs)
      else
        match parseJsonValue n l' with
        | none => none
        | some (v, r1) =>
          match skipJsonWs r1 with
          | c2 :: r2 =>
            if c2 = ',' then parseJsonElems n r2 (v :: acc) false
            else if c2 = ']' then some (Value.arr (v :: acc).reverse, r2)
            else none
          | [] => none

/-- JSON string body after the opening quote (accumulator reversed). -/
def parseJsonStr : Nat → List Char → List Char → Option (String × List Char)
  | 0, _, _ => none
  | n + 1, l, acc =>
    match l with
    | [] => none
    | c :: cs =>
      if c = dquoteChar then some (String.mk acc.reverse, cs)
      else if c = backslashChar then
        match cs with
        | [] => none
        | e :: cs' =>
          if e = dquoteChar then parseJsonStr n cs' (dquoteChar :: acc)
          else if e = backslashChar then parseJsonStr n cs' (backslashChar :: acc)
          else if e = slashChar then parseJsonStr n cs' (slashChar :: acc)
          else if e = 'n' then parseJsonStr n cs' ('\n' :: acc)
          else if e = 't' then parseJsonStr n cs' ('\t' :: acc)
          else if e = 'r' then parseJsonStr n cs' ('\r' :: acc)
          else if e = 'b' then parseJsonStr n cs' (Char.ofNat 8 :: acc)
          else if e = 'f' then parseJsonStr n cs' (Char.ofNat 12 :: acc)
          else none
      else if c.toNat < 32 then none
      else parseJsonStr n cs (c :: acc)

end

/-- json.loads of a whole text: one value, then only whitespace. -/
def jsonParse (l : List Char) : Option Value :=
  match parseJsonValue (2 * l.length + 16) l with
  | some (v, rest) => if (skipJsonWs rest).isEmpty then some v else none
  | none => none

/-- re.sub((\w+):, quoted): wrap every maximal word run immediately followed
by a colon in double quotes. -/
def quoteKeysAux : Nat → List Char → List Char
  | 0, l => l
  | _ + 1, [] => []
  | n + 1, c :: rest =>
    if isWordChar c then
      let run := (c :: rest).takeWhile isWordChar
      let after := (c :: rest).drop run.length
      match after with
      | a :: tail =>
        if a = ':' then
          dquoteChar :: run ++ dquoteChar :: ':' :: quoteKeysAux n tail
        else run ++ quoteKeysAux n after
      | [] => run
    else c :: quoteKeysAux n rest

def quoteKeys (l : List Char) : List Char :=
  quoteKeysAux (l.length + 1) l

/-- re.sub(comma-whitespace-closing-brace, closing-brace): drop trailing
commas before a closing brace. -/
def stripTrailingCommasAux : Nat → List Char → List Char
  | 0, l => l
  | _ + 1, [] => []
  | n + 1, c :: rest =>
    if c = ',' then
      let after := rest.drop (rest.takeWhile isPySpace).length
      match after with
      | a :: tail =>
        if a = rbraceChar then rbraceChar :: stripTrailingCommasAux n tail
        else ',' :: stripTrailingCommasAux n rest
      | [] => ',' :: stripTrailingCommasAux n rest
    else c :: stripTrailingCommasAux n rest

def stripTrailingCommas (l : List Char) : List Char :=
  stripTrailingCommasAux (l.length + 1) l

/-- The span matched by re.search of a brace-delimited group with DOTALL and a
greedy body: it runs from the first opening brace to the last closing brace of
the whole text (none when no such pair exists); the returned list is the text
strictly between them. -/
def braceSpanGreedy (cs : List Char) : Option (List Char) :=
  match cs.dropWhile (fun c => !(c = lbraceChar)) with
  | [] => none
  | _ :: afterL =>
    match afterL.reverse.dropWhile (fun c => !(c = rbraceChar)) with
    | [] => none
    | _ :: revInner => some revInner.reverse

/-- The two structural repairs the source applies to the brace span before
json.loads, in source order. -/
def repairJson (inner : List Char) : List Char :=
  stripTrailingCommas (quoteKeys (lbraceChar :: (inner ++ [rbraceChar])))

mutual

/-- Python repr of a value (the shape f-strings give nested dicts/lists);
string escaping inside repr is outside the model. -/
def pyRepr : Value → String
  | .str s => "'" ++ s ++ "'"
  | .num n => toString n
  | .bool b => if b then "True" else "False"
  | .null => "None"
  | .arr vs => "[" ++ String.intercalate ", " (pyReprList vs) ++ "]"
  | .obj kvs =>
      String.mk [lbraceChar] ++ String.intercalate ", " (pyReprPairs kvs) ++ String.mk [rbraceChar]

def pyReprList : List Value → List String
  | [] => []
  | v :: vs => pyRepr v :: pyReprList vs

def pyReprPairs : List (String × Value) → List String
  | [] => []
  | (k, v) :: kvs => ("'" ++ k ++ "': " ++ pyRepr v) :: pyReprPairs kvs

end

/-- Python str of a value, as interpolated by an f-string. -/
def pyStrTop : Value → String
  | .str s => s
  | .num n => toString n
  | .bool b => if b then "True" else "False"
  | .null => "None"
  | .arr vs => pyRepr (.arr vs)
  | .obj kvs => pyRepr (.obj kvs)

def spacesStr (n : Nat) : String :=
  String.mk (List.replicate n ' ')

def jsonEscapeChar (c : Char) : List Char :=
  if c = dquoteChar then [backslashChar, dquoteChar]
  else if c = backslashChar then [backslashChar, backslashChar]
  else if c = '\n' then [backslashChar, 'n']
  else if c = '\t' then [backslashChar, 't']
  else if c = '\r' then [backslashChar, 'r']
  else [c]

def jsonEscape (s : String) : String :=
  String.mk (s.data.foldr (fun c acc => jsonEscapeChar c ++ acc) [])

mutual

/-- Python json.dumps(v, indent=2). -/
def jsonDumpsInd : Nat → Value → String
  | _, .str s => "\"" ++ jsonEscape s ++ "\""
  | _, .num n => toString n
  | _, .bool b => if b then "true" else "false"
  | _, .null => "null"
  | ind, .arr vs =>
    match vs with
    | [] => "[]"
    | _ =>
      "[\n" ++ String.intercalate ",\n" (jsonDumpsList (ind + 2) vs) ++
        "\n" ++ spacesStr ind ++ "]"
  | ind, .obj kvs =>
    match kvs with
    | [] => String.mk [lbraceChar, rbraceChar]
    | _ =>
      String.mk [lbraceChar, '\n'] ++ String.intercalate ",\n" (jsonDumpsPairs (ind + 2) kvs) ++
        "\n" ++ spacesStr ind ++ String.mk [rbraceChar]

def jsonDumpsList : Nat → List Value → List String
  | _, [] => []
  | ind, v :: vs => (spacesStr ind ++ jsonDumpsInd ind v) :: jsonDumpsList ind vs

def jsonDumpsPairs : Nat → List (String × Value) → List String
  | _, [] => []
  | ind, (k, v) :: kvs =>
    (spacesStr ind ++ "\"" ++ jsonEscape k ++ "\": " ++ jsonDumpsInd ind v) :: jsonDumpsPairs ind kvs

end

def jsonDumps2 (v : Value) : String :=
  jsonDumpsInd 0 v

/-- Python truthiness of an optional string (None and the empty string are
falsy). -/
def falsyOpt : Option String → Bool
  | none => true
  | some s => s.isEmpty

/-- f-string interpolation of an optional string (None prints as None). -/
def optStr : Option String → String
  | some s => s
  | none => "None"

namespace App

/-- Operation synonym sets of LLMInterface.parse_request, in source order. -/
def createKeywords : List String := ["create", "make", "provision", "deploy", "set up", "launch"]

def getKeywords : List String := ["get", "fetch", "retrieve", "show", "display", "describe"]

def listKeywords : List String := ["list", "show all", "get all", "enumerate", "find all"]

def updateKeywords : List String := ["update", "modify", "change", "edit", "alter"]

def deleteKeywords : List String := ["delete", "remove", "destroy", "tear down", "terminate"]

/-- The fixed priority order of operation detection. -/
def priorityOps : List String := ["CREATE", "GET", "LIST", "UPDATE", "DELETE"]

def opKeywords : String → List String
  | "CREATE" => createKeywords
  | "GET" => getKeywords
  | "LIST" => listKeywords
  | "UPDATE" => updateKeywords
  | "DELETE" => deleteKeywords
  | _ => []

/-- Operation detection: the if/elif cascade of parse_request lines 55-64. -/
def detectOperation (cs : List Char) : Option String :=
  let low := lowerChars cs
  if anyWordSearch createKeywords low then some "CREATE"
  else if anyWordSearch getKeywords low then some "GET"
  else if anyWordSearch listKeywords low then some "LIST"
  else if anyWordSearch updateKeywords low then some "UPDATE"
  else if anyWordSearch deleteKeywords low then some "DELETE"
  else none

/-- Pattern AWS:: word+ :: word+ searched on the case-preserving text. -/
def awsTypeToks : List Tok :=
  [.lits "AWS::".data, .group isWordChar, .lits "::".data, .group isWordChar]

/-- The keyword-to-type fallback table, in source (elif) order. -/
def fallbackTypeTable : List (List String × String) :=
  [(["s3", "bucket", "storage"], "AWS::S3::Bucket"),
   (["lambda", "function"], "AWS::Lambda::Function"),
   (["dynamodb", "dynamo", "table"], "AWS::DynamoDB::Table"),
   (["ec2", "instance", "server", "vm"], "AWS::EC2::Instance"),
   (["rds", "database", "db"], "AWS::RDS::DBInstance"),
   (["sns", "topic", "notification"], "AWS::SNS::Topic"),
   (["sqs", "queue"], "AWS::SQS::Queue")]

/-- Resource-type detection of parse_request lines 66-85. -/
def detectResourceType (cs : List Char) : Option String :=
  match reSearchRest awsTypeToks cs with
  | some ([svc, typ], _) => some ("AWS::" ++ String.mk svc ++ "::" ++ String.mk typ)
  | _ =>
    let low := lowerChars cs
    (fallbackTypeTable.find? (fun e => anyWordSearch e.1 low)).map (fun e => e.2)

/-- Name-introducing phrases, in the source alternation order. -/
def namePrefixes : List (List Char) :=
  ["named".data, "called".data, "with name".data, "name is".data, "name it".data]

def nameToks : List Tok :=
  [.alts namePrefixes, .plus isPySpace, .opt isQuoteChar, .group isNameChar, .opt isQuoteChar]

/-- Resource-name extraction (matched against the lower-cased text). -/
def extractName (cs : List Char) : Option String :=
  (reSearchCapture nameToks (lowerChars cs)).map String.mk

/-- Identifier-introducing phrases, in the source alternation order. -/
def identPrefixes : List (List Char) :=
  ["with id".data, "identifier".data, "id is".data, "id:".data, "identifier is".data]

def identToks : List Tok :=
  [.alts identPrefixes, .plus isPySpace, .opt isQuoteChar, .group isIdentChar, .opt isQuoteChar]

/-- Identifier extraction (matched against the lower-cased text). -/
def extractIdentifier (cs : List Char) : Option String :=
  (reSearchCapture identToks (lowerChars cs)).map String.mk

def isEqColon (c : Char) : Bool :=
  c = '=' || c = ':'

/-- The generic key:value pattern of parse_request line 103, searched on the
case-preserving text. -/
def kvToks : List Tok :=
  [.group isWordChar, .star isPySpace, .plus isEqColon, .star isPySpace,
   .opt isQuoteChar, .group isKvValueChar, .opt isQuoteChar]

/-- finditer over the key:value pattern, recording each pair with
last-match-wins dictionary semantics. -/
def kvProps (cs : List Char) : List (String × Value) :=
  (reFindIter kvToks cs).foldl
    (fun d caps =>
      match caps with
      | [k, v] => dictSet d (String.mk (stripChars k)) (Value.str (String.mk (stripChars v)))
      | _ => d)
    []

/-- The quasi-JSON recovery step of parse_request lines 108-119: take the
greedy brace span, repair it, parse it as JSON, and merge the resulting pairs
over the collected properties; any parse failure leaves the properties
untouched. -/
def jsonMergeStep (cs : List Char) (props : List (String × Value)) : List (String × Value) :=
  match braceSpanGreedy cs with
  | none => props
  | some inner =>
    match jsonParse (repairJson inner) with
    | some (Value.obj kvs) => dictUpdate props kvs
    | _ => props

/-- The dictionary LLMInterface.parse_request returns. -/
structure ParsedRequest where
  original_text : String
  operation : Option String := none
  resource_type : Option String := none
  resource_name : Option String := none
  properties : List (String × Value) := []
  identifier : Option String := none

/-- LLMInterface.parse_request (src/app/llm_interface.py lines 33-123). -/
def parse_request (text : String) : ParsedRequest :=
  let cs := text.data
  let operation := detectOperation cs
  let resource_type := detectResourceType cs
  let resource_name := extractName cs
  let identifier :=
    if operation = some "GET" || operation = some "UPDATE" || operation = some "DELETE" then
      extractIdentifier cs
    else none
  let properties := jsonMergeStep cs (kvProps cs)
  { original_text := text, operation := operation, resource_type := resource_type,
    resource_name := resource_name, properties := properties, identifier := identifier }

/-- One JSON Patch entry of an UPDATE configuration. -/
structure PatchEntry where
  op : String
  path : String
  value : Value

/-- The dictionary LLMInterface.generate_resource_config returns, modelled as
a record of optional fields (key absent = none). -/
structure ResourceConfig where
  error : Option String := none
  parsed_request : Option ParsedRequest := none
  operation : Option String := none
  type_name : Option String := none
  desired_state : Option (List (String × Value)) := none
  identifier : Option String := none
  patch_document : Option (List PatchEntry) := none

/-- LLMInterface.generate_resource_config (src/app/llm_interface.py
lines 125-217). -/
def generate_resource_config (pr : ParsedRequest) : ResourceConfig :=
  if falsyOpt pr.operation then
    { error := some "Operation not specified or could not be determined",
      parsed_request := some pr }
  else if falsyOpt pr.resource_type then
    { error := some "Resource type not specified or could not be determined",
      parsed_request := some pr }
  else
    let operation := pr.operation.getD ""
    let type_name := pr.resource_type.getD ""
    if operation = "CREATE" then
      let ds0 : List (String × Value) :=
        if falsyOpt pr.resource_name then []
        else [("Name", Value.str (pr.resource_name.getD ""))]
      { operation := some operation, type_name := some type_name,
        desired_state := some (dictUpdate ds0 pr.properties) }
    else if operation = "GET" || operation = "DELETE" then
      if falsyOpt pr.identifier then
        { error := some ("Identifier is required for " ++ operation ++ " operation"),
          parsed_request := some pr }
      else
        { operation := some operation, type_name := some type_name,
          identifier := pr.identifier }
    else if operation = "LIST" then
      { operation := some operation, type_name := some type_name }
    else if operation = "UPDATE" then
      if falsyOpt pr.identifier then
        { error := some "Identifier is required for UPDATE operation",
          parsed_request := some pr }
      else if pr.properties.isEmpty then
        { error := some "No properties specified for UPDATE operation",
          parsed_request := some pr }
      else
        { operation := some operation, type_name := some type_name,
          identifier := pr.identifier,
          patch_document :=
            some (pr.properties.map (fun kv => PatchEntry.mk "replace" ("/" ++ kv.1) kv.2)) }
    else
      { operation := some operation, type_name := some type_name }

/-- One entry of an OperationResult resources list. -/
structure ResourceEntry where
  identifier : String
  properties : List (String × Value) := []

/-- The execution collaborator's result dictionary, modelled as a record of
optional fields (key absent = none). -/
structure OperationResult where
  operation : Option String := none
  operation_status : Option String := none
  type_name : Option String := none
  identifier : Option String := none
  request_token : Option String := none
  properties : Option (List (String × Value)) := none
  resources : Option (List ResourceEntry) := none
  error_code : Option String := none
  status_message : Option String := none

/-- Python truthiness of the result argument: None and the empty dict are
falsy. -/
def OperationResult.isEmptyDict (r : OperationResult) : Bool :=
  r.operation.isNone && r.operation_status.isNone && r.type_name.isNone &&
    r.identifier.isNone && r.request_token.isNone && r.properties.isNone &&
    r.resources.isNone && r.error_code.isNone && r.status_message.isNone

def resultFalsy : Option OperationResult → Bool
  | none => true
  | some r => r.isEmptyDict

def defaultResponse : String :=
  "I've processed your request, but I'm not sure how to describe the result."

/-- LLMInterface.generate_response (src/app/llm_interface.py lines 219-303). -/
def generate_response (cfg : ResourceConfig) (result : Option OperationResult) : String :=
  match cfg.error with
  | some e => "I couldn't process your request. " ++ e ++ ". Please provide more information."
  | none =>
    let operation := cfg.operation
    let type_name := optStr cfg.type_name
    if resultFalsy result then
      if operation = some "CREATE" then
        let ds := cfg.desired_state.getD []
        let properties_str :=
          String.intercalate ", " (ds.map (fun kv => kv.1 ++ ": " ++ pyStrTop kv.2))
        "I'll create a new " ++ type_name ++ " resource with the following properties: " ++
          properties_str ++ ". Would you like me to proceed?"
      else if operation = some "GET" then
        "I'll retrieve the " ++ type_name ++ " resource with identifier '" ++
          optStr cfg.identifier ++ "'. Would you like me to proceed?"
      else if operation = some "LIST" then
        "I'll list all " ++ type_name ++ " resources. Would you like me to proceed?"
      else if operation = some "UPDATE" then
        let patch := cfg.patch_document.getD []
        let changes :=
          String.intercalate ", "
            (patch.map (fun p =>
              String.mk (p.path.data.dropWhile (fun c => c = slashChar)) ++ ": " ++
                pyStrTop p.value))
        "I'll update the " ++ type_name ++ " resource with identifier '" ++
          optStr cfg.identifier ++ "' with the following changes: " ++ changes ++
          ". Would you like me to proceed?"
      else if operation = some "DELETE" then
        "I'll delete the " ++ type_name ++ " resource with identifier '" ++
          optStr cfg.identifier ++ "'. Would you like me to proceed?"
      else defaultResponse
    else
      let r := (result.getD {})
      if r.operation_status = some "FAILED" then
        "The " ++ optStr operation ++ " operation for " ++ type_name ++
          " failed with error code '" ++ r.error_code.getD "Unknown" ++ "'. " ++
          r.status_message.getD "No additional information available"
      else if operation = some "CREATE" then
        let request_token := r.request_token.getD ""
        if falsyOpt r.identifier then
          "I've started creating a new " ++ type_name ++
            " resource. You can check the status using the request token: " ++ request_token
        else
          "I've started creating a new " ++ type_name ++ " resource with identifier '" ++
            optStr r.identifier ++ "'. You can check the status using the request token: " ++
            request_token
      else if operation = some "GET" then
        "Here are the details of the " ++ type_name ++ " resource:\n" ++
          jsonDumps2 (Value.obj (r.properties.getD []))
      else if operation = some "LIST" then
        let resources := r.resources.getD []
        if resources.isEmpty then "No " ++ type_name ++ " resources found."
        else
          "I found " ++ toString resources.length ++ " " ++ type_name ++ " resources:\n" ++
            String.intercalate "\n" (resources.map (fun e => "- " ++ e.identifier))
      else if operation = some "UPDATE" then
        "I've started updating the " ++ type_name ++ " resource with identifier '" ++
          optStr r.identifier ++ "'. You can check the status using the request token: " ++
          r.request_token.getD ""
      else if operation = some "DELETE" then
        "I've started deleting the " ++ type_name ++ " resource with identifier '" ++
          optStr r.identifier ++ "'. You can check the status using the request token: " ++
          r.request_token.getD ""
      else defaultResponse

end App

namespace Ccapi

/-- The first (capturing) alternative AWS:: word+ :: word+ of the
create-pattern, tried anchored at a position. -/
def typeAt (l : List Char) : Option String :=
  match reMatch (engineFuel App.awsTypeToks l) App.awsTypeToks l with
  | some ([svc, typ], _) => some ("AWS::" ++ String.mk svc ++ "::" ++ String.mk typ)
  | _ =>
    if (matchLit "s3 bucket".data l).isSome then some "s3 bucket"
    else if (matchLit "dynamodb table".data l).isSome then some "dynamodb table"
    else if (matchLit "lambda function".data l).isSome then some "lambda function"
    else if (matchLit "ec2 instance".data l).isSome then some "ec2 instance"
    else none

/-- Backtracking over the optional article: try the indefinite article a
followed by a space, then no article. -/
def createTypeAfterA (r : List Char) : Option String :=
  match matchLit "a ".data r with
  | some r2 =>
    match typeAt r2 with
    | some t => some t
    | none => typeAt r
  | none => typeAt r

/-- Backtracking over the optional article, preferring an then a then none
(the greedy order of an? followed by a space inside an optional group). -/
def createTypeAfterArticle (r : List Char) : Option String :=
  match matchLit "an ".data r with
  | some r2 =>
    match typeAt r2 with
    | some t => some t
    | none => createTypeAfterA r
  | none => createTypeAfterA r

/-- re.search of the create-pattern of Ccapi parse_request line 32 over the
lower-cased text: leftmost occurrence of create, optional article, then a
resource-type alternative. -/
def findCreateType : List Char → Option String
  | [] => none
  | l@(_ :: cs) =>
    match
      (match matchLit "create ".data l with
       | some r => createTypeAfterArticle r
       | none => none) with
    | some t => some t
    | none => findCreateType cs

/-- Common-name to AWS resource-type mapping (parse_request lines 41-46). -/
def resourceTypeMapping : List (String × String) :=
  [("s3 bucket", "AWS::S3::Bucket"), ("dynamodb table", "AWS::DynamoDB::Table"),
   ("lambda function", "AWS::Lambda::Function"), ("ec2 instance", "AWS::EC2::Instance")]

def mapResourceType (t : String) : String :=
  (((resourceTypeMapping.find? (fun e => e.1 = t)).map (fun e => e.2)).getD t)

/-- re.findall of an upper-case letter followed by non-upper-case letters:
the camel-case segments of a property name. -/
def camelSegsAux : Nat → List Char → List (List Char)
  | 0, _ => []
  | _ + 1, [] => []
  | n + 1, c :: rest =>
    if c.isUpper then
      let seg := rest.takeWhile (fun d => !d.isUpper)
      (c :: seg) :: camelSegsAux n (rest.drop seg.length)
    else camelSegsAux n rest

def joinSpace : List (List Char) → List Char
  | [] => []
  | [s] => s
  | s :: rest => s ++ ' ' :: joinSpace rest

/-- The space-joined, lower-cased camel-split of a property name. -/
def camelSplitLower (p : String) : List Char :=
  lowerChars (joinSpace (camelSegsAux (p.data.length + 1) p.data))

/-- Property-name pattern with a required quoted value. -/
def propQuotedToks (p : List Char) : List Tok :=
  [.lits p, .plus isColonSpace, .cls isQuoteChar, .group isDotWordChar, .cls isQuoteChar]

/-- Property-name pattern with a bare word value. -/
def propBareToks (p : List Char) : List Tok :=
  [.lits p, .plus isColonSpace, .group isWordChar]

/-- The six patterns tried for one schema property name, in source order
(parse_request lines 67-80), all searched on the case-preserving text. -/
def extractProp (cs : List Char) (p : String) : Option (List Char) :=
  match reSearchCapture (propQuotedToks p.data) cs with
  | some v => some v
  | none =>
  match reSearchCapture (propBareToks p.data) cs with
  | some v => some v
  | none =>
  match reSearchCapture (propQuotedToks (lowerChars p.data)) cs with
  | some v => some v
  | none =>
  match reSearchCapture (propBareToks (lowerChars p.data)) cs with
  | some v => some v
  | none =>
  match reSearchCapture (propQuotedToks (camelSplitLower p)) cs with
  | some v => some v
  | none => reSearchCapture (propBareToks (camelSplitLower p)) cs

def bucketNameToks : List Tok :=
  [.alts ["bucket".data, "name".data], .plus isColonSpace, .cls isQuoteChar,
   .group isDotWordChar, .cls isQuoteChar]

def tableNameToks : List Tok :=
  [.alts ["table".data, "name".data], .plus isColonSpace, .cls isQuoteChar,
   .group isDotWordChar, .cls isQuoteChar]

def versioningToks : List Tok :=
  [.lits "versioning".data, .plus isColonSpace,
   .altsGroup ["enabled".data, "disabled".data, "true".data, "false".data]]

def publicAccessToks : List Tok :=
  [.lits "public access".data, .plus isColonSpace,
   .altsGroup ["blocked".data, "allowed".data, "true".data, "false".data]]

def encryptionToks : List Tok :=
  [.lits "encryption".data, .plus isColonSpace,
   .altsGroup ["enabled".data, "disabled".data, "true".data, "false".data]]

def partitionKeyToks : List Tok :=
  [.lits "partition key".data, .plus isColonSpace, .cls isQuoteChar,
   .group isDotWordChar, .cls isQuoteChar]

def sortKeyToks : List Tok :=
  [.lits "sort key".data, .plus isColonSpace, .cls isQuoteChar,
   .group isDotWordChar, .cls isQuoteChar]

def readCapacityToks : List Tok :=
  [.lits "read capacity".data, .plus isColonSpace, .group Char.isDigit]

def writeCapacityToks : List Tok :=
  [.lits "write capacity".data, .plus isColonSpace, .group Char.isDigit]

/-- The full public-access-blocked configuration written by parse_request. -/
def pabValue : Value :=
  .obj [("BlockPublicAcls", .bool true), ("BlockPublicPolicy", .bool true),
        ("IgnorePublicAcls", .bool true), ("RestrictPublicBuckets", .bool true)]

/-- The SSE-S3 encryption configuration written by parse_request. -/
def beValue : Value :=
  .obj [("ServerSideEncryptionConfiguration",
         .arr [.obj [("ServerSideEncryptionByDefault",
                      .obj [("SSEAlgorithm", .str "AES256")])]])]

/-- Append to a list-valued parameter (Python params[k].append(v)); a
non-list value here would raise in Python and is unreachable through the
embedded call sites. -/
def arrAppend (params : List (String × Value)) (k : String) (v : Value) : List (String × Value) :=
  match dictGet params k with
  | some (Value.arr vs) => dictSet params k (.arr (vs ++ [v]))
  | _ => params

/-- The S3-specific refinements of Ccapi parse_request lines 83-124. -/
def s3Extras (cs : List Char) (params0 : List (String × Value)) : List (String × Value) :=
  let params1 :=
    if (dictGet params0 "BucketName").isSome then params0
    else
      match reSearchCapture bucketNameToks cs with
      | some v => dictSet params0 "BucketName" (.str (String.mk v))
      | none => params0
  let low := lowerChars cs
  let params2 :=
    match reSearchCapture versioningToks low with
    | some v =>
      if String.mk v = "enabled" || String.mk v = "true" then
        dictSet params1 "VersioningConfiguration" (.obj [("Status", .str "Enabled")])
      else
        dictSet params1 "VersioningConfiguration" (.obj [("Status", .str "Suspended")])
    | none => params1
  let params3 :=
    match reSearchCapture publicAccessToks low with
    | some v =>
      if String.mk v = "blocked" || String.mk v = "true" then
        dictSet params2 "PublicAccessBlockConfiguration" pabValue
      else params2
    | none => params2
  match reSearchCapture encryptionToks low with
  | some v =>
    if String.mk v = "enabled" || String.mk v = "true" then
      dictSet params3 "BucketEncryption" beValue
    else params3
  | none => params3

/-- The DynamoDB-specific refinements of Ccapi parse_request lines 126-194. -/
def dynamoExtras (cs : List Char) (params0 : List (String × Value)) : List (String × Value) :=
  let params1 :=
    if (dictGet params0 "TableName").isSome then params0
    else
      match reSearchCapture tableNameToks cs with
      | some v => dictSet params0 "TableName" (.str (String.mk v))
      | none => params0
  let params2 :=
    match reSearchCapture partitionKeyToks cs with
    | some pk =>
      let p :=
        if (dictGet params1 "KeySchema").isNone then dictSet params1 "KeySchema" (.arr [])
        else params1
      let p :=
        if (dictGet p "AttributeDefinitions").isNone then
          dictSet p "AttributeDefinitions" (.arr [])
        else p
      let p :=
        arrAppend p "KeySchema"
          (.obj [("AttributeName", .str (String.mk pk)), ("KeyType", .str "HASH")])
      arrAppend p "AttributeDefinitions"
        (.obj [("AttributeName", .str (String.mk pk)), ("AttributeType", .str "S")])
    | none => params1
  let params3 :=
    match reSearchCapture sortKeyToks cs with
    | some sk =>
      let p :=
        if (dictGet params2 "KeySchema").isNone then dictSet params2 "KeySchema" (.arr [])
        else params2
      let p :=
        if (dictGet p "AttributeDefinitions").isNone then
          dictSet p "AttributeDefinitions" (.arr [])
        else p
      let p :=
        arrAppend p "KeySchema"
          (.obj [("AttributeName", .str (String.mk sk)), ("KeyType", .str "RANGE")])
      arrAppend p "AttributeDefinitions"
        (.obj [("AttributeName", .str (String.mk sk)), ("AttributeType", .str "S")])
    | none => params2
  match reSearchCapture readCapacityToks cs, reSearchCapture writeCapacityToks cs with
  | none, none => params3
  | r, w =>
    let rv : Int := match r with | some d => Int.ofNat (digitsToNat d) | none => 5
    let wv : Int := match w with | some d => Int.ofNat (digitsToNat d) | none => 5
    dictSet params3 "ProvisionedThroughput"
      (.obj [("ReadCapacityUnits", .num rv), ("WriteCapacityUnits", .num wv)])

/-- The dictionary Ccapi parse_request returns. -/
structure CcapiParsed where
  error : Option String := none
  resource_type : Option String := none
  params : List (String × Value) := []

/-- Ccapi LLMInterface.parse_request (src/mcp-ccapi/app/llm_interface.py
lines 20-199).  The schema store is the external collaborator; schema is its
answer for the detected resource type: none models get_schema and
download_schema both failing, some gives the schema's property names. -/
def parse_request (schema : Option (List String)) (text : String) : CcapiParsed :=
  let low := lowerChars text.data
  match findCreateType low with
  | none => { error := some "Could not determine the resource type to create" }
  | some raw =>
    let resource_type := mapResourceType raw
    match schema with
    | none => { error := some ("Could not find schema for resource type: " ++ resource_type) }
    | some propNames =>
      let params :=
        propNames.foldl
          (fun ps p =>
            match extractProp text.data p with
            | some v => dictSet ps p (.str (String.mk v))
            | none => ps)
          []
      let params :=
        if resource_type = "AWS::S3::Bucket" then s3Extras text.data params
        else if resource_type = "AWS::DynamoDB::Table" then dynamoExtras text.data params
        else params
      { resource_type := some resource_type, params := params }

/-- The dictionary SchemaManager.validate_resource_config returns. -/
structure ValidationResult where
  valid : Bool
  errors : List String := []

/-- SchemaManager.validate_resource_config (src/mcp-ccapi/app/schema_manager.py
lines 186-214): schemaRequired is the schema store's required-property list
for the type (none models an unavailable schema). -/
def validate_resource_config (schemaRequired : Option (List String)) (typeName : String)
    (config : List (String × Value)) : ValidationResult :=
  match schemaRequired with
  | none => { valid := false, errors := ["No schema found for " ++ typeName] }
  | some required =>
    let missing := required.filter (fun p => (dictGet config p).isNone)
    if !missing.isEmpty then
      { valid := false,
        errors := ["Missing required properties: " ++ String.intercalate ", " missing] }
    else { valid := true, errors := [] }

/-- The dictionary Ccapi generate_resource_config returns. -/
structure CcapiConfig where
  error : Option String := none
  type_name : Option String := none
  desired_state : Option (List (String × Value)) := none

/-- Ccapi LLMInterface.generate_resource_config (src/mcp-ccapi/app/
llm_interface.py lines 201-235).  get_required_properties answers [] when the
schema is unavailable, as in the source. -/
def generate_resource_config (schemaRequired : Option (List String)) (pr : CcapiParsed) : CcapiConfig :=
  match pr.error with
  | some e => { error := some e }
  | none =>
    let resource_type := pr.resource_type.getD ""
    let params := pr.params
    let required := schemaRequired.getD []
    let missing := required.filter (fun p => (dictGet params p).isNone)
    if !missing.isEmpty then
      { error := some ("Missing required properties: " ++ String.intercalate ", " missing) }
    else
      let vr := validate_resource_config schemaRequired resource_type params
      if !vr.valid then { error := some (String.intercalate "; " vr.errors) }
      else { type_name := some resource_type, desired_state := some params }

/-- One property-type entry as read by _generate_default_value (only the
type field of the property schema is consulted). -/
structure CProp where
  type : Option String := none

/-- The schema data generate_resource_template reads: the property-type map
and the required-property list. -/
structure SchemaData where
  ptypes : List (String × CProp) := []
  required : List String := []

/-- SchemaManager._generate_default_value (src/mcp-ccapi/app/schema_manager.py
lines 245-268). -/
def generate_default_value (ps : CProp) : Value :=
  match ps.type with
  | some "string" => .str ""
  | some "integer" => .num 0
  | some "number" => .num 0
  | some "boolean" => .bool false
  | some "array" => .arr []
  | some "object" => .obj []
  | _ => .null

/-- SchemaManager.generate_resource_template (src/mcp-ccapi/app/
schema_manager.py lines 216-243): empty when the schema is unavailable,
otherwise one entry per property that is required or explicitly included. -/
def generate_resource_template (schema : Option SchemaData) (include_optional : Bool) :
    List (String × Value) :=
  match schema with
  | none => []
  | some s =>
    s.ptypes.foldl
      (fun t pp =>
        if s.required.contains pp.1 || include_optional then
          dictSet t pp.1 (generate_default_value pp.2)
        else t)
      []

/-- Ccapi LLMInterface.generate_response (src/mcp-ccapi/app/llm_interface.py
lines 237-317).  identifierProp is the schema store's
get_resource_identifier_property answer for the type. -/
def generate_response (identifierProp : Option String) (cfg : CcapiConfig)
    (result : Option App.OperationResult) : String :=
  match cfg.error with
  | some e => "I couldn't create the resource: " ++ e
  | none =>
    let resource_type := optStr cfg.type_name
    let desired_state := cfg.desired_state.getD []
    if App.resultFalsy result then
      let identifier_value :=
        match identifierProp with
        | none => "unknown"
        | some ip =>
          match dictGet desired_state ip with
          | some v => pyStrTop v
          | none => "unknown"
      let descs :=
        desired_state.filterMap
          (fun kv =>
            if some kv.1 = identifierProp then none
            else
              match kv.2 with
              | Value.obj o => some ("- " ++ kv.1 ++ ": " ++ jsonDumps2 (Value.obj o))
              | Value.arr a => some ("- " ++ kv.1 ++ ": " ++ jsonDumps2 (Value.arr a))
              | v => some ("- " ++ kv.1 ++ ": " ++ pyStrTop v))
      "I'll create a " ++ resource_type ++ " resource with identifier '" ++ identifier_value ++
        "' and the following configuration:\n" ++ String.intercalate "\n" descs ++
        "\n\nWould you like me to proceed with creating this resource?"
    else
      let r := result.getD {}
      let operation := r.operation.getD "CREATE"
      let status := r.operation_status.getD ""
      let identifier := r.identifier.getD ""
      if status = "IN_PROGRESS" then
        "I've started the " ++ operation ++ " operation for the " ++ resource_type ++
          " resource.\n- Resource identifier: " ++ identifier ++ "\n- Current status: " ++
          status ++ "\n- Request token: " ++ r.request_token.getD "" ++
          "\n\nYou can check the status of this request later using the request token."
      else if status = "SUCCESS" then
        "The " ++ operation ++ " operation for the " ++ resource_type ++
          " resource was successful!\n- Resource identifier: " ++ identifier ++
          "\n- Status: " ++ status
      else if status = "FAILED" then
        "The " ++ operation ++ " operation for the " ++ resource_type ++
          " resource failed.\n- Resource identifier: " ++ identifier ++
          "\n- Error code: " ++ r.error_code.getD "" ++
          "\n- Error message: " ++ r.status_message.getD ""
      else
        "The " ++ operation ++ " operation for the " ++ resource_type ++
          " resource is in state: " ++ status

end Ccapi

/-- Modelled from the spec: the claim's reading of the quasi-JSON step takes
the FIRST brace-delimited span matched NON-greedily (leftmost opening brace,
then the nearest closing brace), across newlines.  This definition follows
the spec's words and exists only to be compared with braceSpanGreedy, the
behaviour of the source's greedy pattern. -/
def specNonGreedyBraceSpan (cs : List Char) : Option (List Char) :=
  match cs.dropWhile (fun c => !(c = lbraceChar)) with
  | [] => none
  | _ :: afterL =>
    let inner := afterL.takeWhile (fun c => !(c = rbraceChar))
    if inner.length = afterL.length then none else some inner

/-- Scenario 1 input text. -/
def c1text : String := "Create an S3 bucket with name 'my-test-bucket' and versioning enabled"

/-- Input with two brace spans separated by non-JSON text: the non-greedy
first span is valid JSON, the greedy span is not. -/
def c9ctext : String :=
  "deploy " ++ String.mk [lbraceChar] ++ "\"A\": \"one\"" ++ String.mk [rbraceChar] ++
    " and " ++ String.mk [lbraceChar] ++ "\"B\": \"two\"" ++ String.mk [rbraceChar]

/-- Input with a single valid JSON brace span. -/
def c9wtext : String :=
  "make x " ++ String.mk [lbraceChar] ++ "\"K\": \"v\"" ++ String.mk [rbraceChar] ++ " end"

/-- A ParsedRequest whose extracted properties themselves bind the Name key
(reachable, e.g., from a text containing both a named phrase and a Name:
key/value pair). -/
def c6pr : App.ParsedRequest :=
  { original_text := "create a bucket named foo, Name: bar",
    operation := some "CREATE", resource_type := some "AWS::S3::Bucket",
    resource_name := some "foo", properties := [("Name", Value.str "bar")],
    identifier := none }


theorem dictGet_dictSet_self (d : List (String × Value)) (k : String) (v : Value) :
    dictGet (dictSet d k v) k = some v := by
  induction d with
  | nil => simp [dictSet, dictGet]
  | cons kv rest ih =>
    by_cases h : kv.1 = k
    · simp [dictSet, dictGet, h]
    · simp [dictSet, dictGet, h, ih]

theorem dictGet_dictSet_ne (d : List (String × Value)) (k k' : String) (v : Value)
    (h : k' ≠ k) : dictGet (dictSet d k' v) k = dictGet d k := by
  induction d with
  | nil => simp [dictSet, dictGet, h]
  | cons kv rest ih =>
    by_cases hh : kv.1 = k'
    · simp [dictSet, dictGet, hh, h]
    · simp only [dictSet, hh, if_false, dictGet]
      by_cases hk : kv.1 = k
      · simp [hk]
      · simp [hk, ih]

theorem dictGet_dictUpdate_notin (d : List (String × Value)) (kvs : List (String × Value))
    (k : String) (h : ∀ kv ∈ kvs, kv.1 ≠ k) :
    dictGet (dictUpdate d kvs) k = dictGet d k := by
  induction kvs generalizing d with
  | nil => rfl
  | cons kv rest ih =>
    have hkv : kv.1 ≠ k := h kv (List.mem_cons_self kv rest)
    have hrest : ∀ kv' ∈ rest, kv'.1 ≠ k := fun kv' hm => h kv' (List.mem_cons_of_mem kv hm)
    show dictGet (dictUpdate (dictSet d kv.1 kv.2) rest) k = dictGet d k
    rw [ih (dictSet d kv.1 kv.2) hrest, dictGet_dictSet_ne d k kv.1 kv.2 hkv]

theorem mem_keys_dictSet (d : List (String × Value)) (k a : String) (v : Value) :
    a ∈ (dictSet d k v).map Prod.fst ↔ a ∈ d.map Prod.fst ∨ a = k := by
  induction d with
  | nil =>
    simp only [dictSet, List.map_cons, List.map_nil, List.mem_cons, List.not_mem_nil]
    tauto
  | cons kv rest ih =>
    by_cases h : kv.1 = k
    · simp only [dictSet, h, if_true, List.map_cons, List.mem_cons]
      constructor
      · rintro (hk | hm)
        · exact Or.inr hk
        · exact Or.inl (Or.inr hm)
      · rintro ((h1 | hm) | hk)
        · exact Or.inl h1
        · exact Or.inr hm
        · exact Or.inl hk
    · simp only [dictSet, h, if_false, List.map_cons, List.mem_cons, ih]
      tauto

theorem mem_takeWhile_sat {α : Type} (p : α → Bool) (l : List α) (x : α)
    (h : x ∈ l.takeWhile p) : p x = true :=
  List.mem_takeWhile_imp h

theorem dropWhile_head_false {α : Type} (p : α → Bool) (l : List α) (d : α) (r : List α)
    (h : l.dropWhile p = d :: r) : p d = false := by
  induction l with
  | nil => simp [List.dropWhile] at h
  | cons c cs ih =>
    rw [List.dropWhile_cons] at h
    by_cases hc : p c = true
    · rw [if_pos hc] at h
      exact ih h
    · rw [if_neg hc] at h
      cases h
      exact Bool.not_eq_true _ |>.mp hc

theorem ofNat_isUpper_false (n : Nat) (h1 : 97 ≤ n) (h2 : n ≤ 122) :
    (Char.ofNat n).isUpper = false := by
  have hval : n.isValidChar := by left; omega
  have htn : (Char.ofNat n).toNat = n := by
    simp only [Char.ofNat]
    rw [dif_pos hval]
    simp only [Char.ofNatAux, Char.toNat]
    exact BitVec.toNat_ofNatLt n (by omega)
  simp only [Char.isUpper]
  rw [Bool.and_eq_false_iff]
  right
  rw [decide_eq_false_iff_not]
  show ¬((Char.ofNat n).toNat ≤ (90 : UInt32).toNat)
  rw [htn]
  have h90 : (90 : UInt32).toNat = 90 := by decide
  omega

theorem toLower_isUpper_false (c : Char) : (Char.toLower c).isUpper = false := by
  show (if c.toNat ≥ 65 ∧ c.toNat ≤ 90 then Char.ofNat (c.toNat + 32) else c).isUpper = false
  split
  · next h => exact ofNat_isUpper_false _ (by omega) (by omega)
  · next h =>
    simp only [Char.isUpper]
    rw [Bool.and_eq_false_iff]
    by_cases h65 : 65 ≤ c.toNat
    · right
      rw [decide_eq_false_iff_not]
      show ¬(c.toNat ≤ (90 : UInt32).toNat)
      have h90 : (90 : UInt32).toNat = 90 := by decide
      rw [h90]
      omega
    · left
      rw [decide_eq_false_iff_not]
      show ¬((65 : UInt32).toNat ≤ c.toNat)
      have h65' : (65 : UInt32).toNat = 65 := by decide
      rw [h65']
      omega

theorem mem_lowerChars_isUpper_false (cs : List Char) (c : Char) (h : c ∈ lowerChars cs) :
    c.isUpper = false := by
  unfold lowerChars at h
  rw [List.mem_map] at h
  obtain ⟨a, _, rfl⟩ := h
  exact toLower_isUpper_false a

theorem matchLit_mem (s : List Char) : ∀ (l r : List Char), matchLit s l = some r →
    (∀ c ∈ s, c ∈ l) ∧ (∀ c ∈ r, c ∈ l) := by
  induction s with
  | nil =>
    intro l r h
    cases h
    exact ⟨by simp, fun c hc => hc⟩
  | cons p ps ih =>
    intro l r h
    cases l with
    | nil => simp [matchLit] at h
    | cons c' cs' =>
      rw [matchLit] at h
      by_cases hp : p = c'
      · rw [if_pos hp] at h
        obtain ⟨hs, hr⟩ := ih cs' r h
        constructor
        · intro c hc
          rcases List.mem_cons.mp hc with rfl | hc
          · exact hp ▸ List.mem_cons_self c' cs'
          · exact List.mem_cons_of_mem c' (hs c hc)
        · exact fun c hc => List.mem_cons_of_mem c' (hr c hc)
      · rw [if_neg hp] at h
        cases h

theorem engine_caps_mem : ∀ n : Nat,
    (∀ ts l res, reMatch n ts l = some res → ∀ cs ∈ res.1, ∀ c ∈ cs, c ∈ l) ∧
    (∀ capture ts l k m res, tryLens n capture ts l k m = some res →
      ∀ cs ∈ res.1, ∀ c ∈ cs, c ∈ l) ∧
    (∀ capture ts l ss res, tryAlts n capture ts l ss = some res →
      ∀ cs ∈ res.1, ∀ c ∈ cs, c ∈ l) := by
  intro n
  induction n with
  | zero =>
    refine ⟨?_, ?_, ?_⟩
    · intro ts l res h
      simp [reMatch] at h
    · intro capture ts l k m res h
      simp [tryLens] at h
    · intro capture ts l ss res h
      simp [tryAlts] at h
  | succ n ih =>
    obtain ⟨ihM, ihL, ihA⟩ := ih
    refine ⟨?_, ?_, ?_⟩
    · intro ts l res h cs hcs c hc
      cases ts with
      | nil =>
        simp only [reMatch] at h
        cases h
        simp at hcs
      | cons t ts' =>
        cases t with
        | lits s =>
          simp only [reMatch] at h
          cases hm : matchLit s l with
          | none => rw [hm] at h; cases h
          | some rest =>
            rw [hm] at h
            exact (matchLit_mem s l rest hm).2 c (ihM ts' rest res h cs hcs c hc)
        | cls p =>
          cases l with
          | nil => simp [reMatch] at h
          | cons c' cs' =>
            simp only [reMatch] at h
            by_cases hp : p c' = true
            · rw [if_pos hp] at h
              exact List.mem_cons_of_mem c' (ihM ts' cs' res h cs hcs c hc)
            · rw [if_neg hp] at h
              cases h
        | opt p =>
          cases l with
          | nil =>
            simp only [reMatch] at h
            exact ihM ts' [] res h cs hcs c hc
          | cons c' cs' =>
            simp only [reMatch] at h
            by_cases hp : p c' = true
            · rw [if_pos hp] at h
              cases hm : reMatch n ts' cs' with
              | some r =>
                rw [hm] at h
                cases h
                exact List.mem_cons_of_mem c' (ihM ts' cs' res hm cs hcs c hc)
              | none =>
                rw [hm] at h
                exact ihM ts' (c' :: cs') res h cs hcs c hc
            · rw [if_neg hp] at h
              exact ihM ts' (c' :: cs') res h cs hcs c hc
        | star p =>
          simp only [reMatch] at h
          exact ihL false ts' l ((l.takeWhile p).length) 0 res h cs hcs c hc
        | plus p =>
          simp only [reMatch] at h
          exact ihL false ts' l ((l.takeWhile p).length) 1 res h cs hcs c hc
        | group p =>
          simp only [reMatch] at h
          exact ihL true ts' l ((l.takeWhile p).length) 1 res h cs hcs c hc
        | alts ss =>
          simp only [reMatch] at h
          exact ihA false ts' l ss res h cs hcs c hc
        | altsGroup ss =>
          simp only [reMatch] at h
          exact ihA true ts' l ss res h cs hcs c hc
    · intro capture ts l k m res h cs hcs c hc
      simp only [tryLens] at h
      by_cases hkm : k < m
      · rw [if_pos hkm] at h
        cases h
      · rw [if_neg hkm] at h
        cases hm : reMatch n ts (l.drop k) with
        | some p =>
          obtain ⟨caps0, rest0⟩ := p
          simp only [hm] at h
          rw [← Option.some.inj h] at hcs
          cases capture with
          | true =>
            rcases List.mem_cons.mp (show cs ∈ l.take k :: caps0 from hcs) with heq | hcs'
            · exact List.take_subset k l (heq ▸ hc)
            · exact List.drop_subset k l (ihM ts (l.drop k) (caps0, rest0) hm cs hcs' c hc)
          | false =>
            exact List.drop_subset k l
              (ihM ts (l.drop k) (caps0, rest0) hm cs (show cs ∈ caps0 from hcs) c hc)
        | none =>
          simp only [hm] at h
          cases k with
          | zero => cases h
          | succ k' => exact ihL capture ts l k' m res h cs hcs c hc
    · intro capture ts l ss res h cs hcs c hc
      cases ss with
      | nil => simp [tryAlts] at h
      | cons s rest =>
        simp only [tryAlts] at h
        cases hms : matchLit s l with
        | none =>
          simp only [hms] at h
          exact ihA capture ts l rest res h cs hcs c hc
        | some r =>
          simp only [hms] at h
          cases hm : reMatch n ts r with
          | some p =>
            obtain ⟨caps0, rest0⟩ := p
            simp only [hm] at h
            rw [← Option.some.inj h] at hcs
            cases capture with
            | true =>
              rcases List.mem_cons.mp (show cs ∈ s :: caps0 from hcs) with heq | hcs'
              · exact (matchLit_mem s l r hms).1 c (heq ▸ hc)
              · exact (matchLit_mem s l r hms).2 c (ihM ts r (caps0, rest0) hm cs hcs' c hc)
            | false =>
              exact (matchLit_mem s l r hms).2 c
                (ihM ts r (caps0, rest0) hm cs (show cs ∈ caps0 from hcs) c hc)
          | none =>
            simp only [hm] at h
            exact ihA capture ts l rest res h cs hcs c hc

theorem reSearchRest_caps_mem (ts : List Tok) : ∀ (l : List Char) res,
    reSearchRest ts l = some res → ∀ cs ∈ res.1, ∀ c ∈ cs, c ∈ l := by
  intro l
  induction l with
  | nil =>
    intro res h cs hcs c hc
    exact (engine_caps_mem _).1 ts [] res h cs hcs c hc
  | cons c' cs' ih =>
    intro res h cs hcs c hc
    simp only [reSearchRest] at h
    cases hm : reMatch (engineFuel ts (c' :: cs')) ts (c' :: cs') with
    | some r =>
      rw [hm] at h
      cases h
      exact (engine_caps_mem _).1 ts (c' :: cs') res hm cs hcs c hc
    | none =>
      rw [hm] at h
      exact List.mem_cons_of_mem c' (ih res h cs hcs c hc)

theorem reSearchCapture_mem (ts : List Tok) (l : List Char) (cap : List Char)
    (h : reSearchCapture ts l = some cap) : ∀ c ∈ cap, c ∈ l := by
  unfold reSearchCapture at h
  cases hr : reSearchRest ts l with
  | none => rw [hr] at h; cases h
  | some res =>
    rw [hr] at h
    obtain ⟨caps, rest⟩ := res
    cases caps with
    | nil => cases h
    | cons c0 cr =>
      have hc0 : c0 = cap := Option.some.inj h
      subst hc0
      exact reSearchRest_caps_mem ts l (c0 :: cr, rest) hr c0 (List.mem_cons_self c0 cr)

/-- Claim C2: for every input text, operation classification tests the fixed
synonym sets against the lower-cased text in priority order CREATE, GET,
LIST, UPDATE, DELETE and returns the first operation whose set has a
whole-word match; in particular a text containing both a CREATE keyword and
a DELETE keyword classifies as CREATE. -/
theorem claim_c2_operation_priority (text : String) :
    App.detectOperation text.data =
      (App.priorityOps.filter
        (fun op => anyWordSearch (App.opKeywords op) (lowerChars text.data))).head? ∧
    (anyWordSearch App.createKeywords (lowerChars text.data) = true →
      anyWordSearch App.deleteKeywords (lowerChars text.data) = true →
      App.detectOperation text.data = some "CREATE") := by
  constructor
  · cases h1 : anyWordSearch App.createKeywords (lowerChars text.data) with
    | true => simp [App.detectOperation, App.priorityOps, App.opKeywords, h1]
    | false =>
      cases h2 : anyWordSearch App.getKeywords (lowerChars text.data) with
      | true => simp [App.detectOperation, App.priorityOps, App.opKeywords, h1, h2]
      | false =>
        cases h3 : anyWordSearch App.listKeywords (lowerChars text.data) with
        | true => simp [App.detectOperation, App.priorityOps, App.opKeywords, h1, h2, h3]
        | false =>
          cases h4 : anyWordSearch App.updateKeywords (lowerChars text.data) with
          | true =>
            simp [App.detectOperation, App.priorityOps, App.opKeywords, h1, h2, h3, h4]
          | false =>
            cases h5 : anyWordSearch App.deleteKeywords (lowerChars text.data) with
            | true =>
              simp [App.detectOperation, App.priorityOps, App.opKeywords, h1, h2, h3, h4, h5]
            | false =>
              simp [App.detectOperation, App.priorityOps, App.opKeywords, h1, h2, h3, h4, h5]
  · intro h1 _
    simp [App.detectOperation, h1]

/-- Witness for claim C2 at a text containing both create and delete. -/
theorem claim_c2_witness :
    App.detectOperation ("create one and delete the other").data = some "CREATE" :=
  (claim_c2_operation_priority "create one and delete the other").2 (by decide) (by decide)

/-- Claim C3: build_config is total and returns the error variant with the
appropriate message when the operation is unset, when (the operation being
set) the resource type is unset, and when (both being set) a GET, UPDATE or
DELETE request has no identifier; render of any error variant is the
apologetic message quoting the stored error string. -/
theorem claim_c3_error_paths (pr : App.ParsedRequest) (cfg : App.ResourceConfig)
    (res : Option App.OperationResult) (msg : String) :
    (falsyOpt pr.operation = true →
      (App.generate_resource_config pr).error =
        some "Operation not specified or could not be determined") ∧
    (falsyOpt pr.operation = false → falsyOpt pr.resource_type = true →
      (App.generate_resource_config pr).error =
        some "Resource type not specified or could not be determined") ∧
    ((pr.operation = some "GET" ∨ pr.operation = some "UPDATE" ∨ pr.operation = some "DELETE") →
      falsyOpt pr.resource_type = false → falsyOpt pr.identifier = true →
      (App.generate_resource_config pr).error =
        some ("Identifier is required for " ++ pr.operation.getD "" ++ " operation")) ∧
    (cfg.error = some msg →
      App.generate_response cfg res =
        "I couldn't process your request. " ++ msg ++ ". Please provide more information.") := by
  refine ⟨?_, ?_, ?_, ?_⟩
  · intro h
    simp [App.generate_resource_config, h]
  · intro h1 h2
    simp [App.generate_resource_config, h1, h2]
  · intro hop hrt hid
    rcases hop with h | h | h
    all_goals
      have hfo : falsyOpt pr.operation = false := by rw [h]; rfl
    all_goals
      simp [App.generate_resource_config, hfo, hrt, h, hid]
    all_goals rfl
  · intro h
    simp [App.generate_response, h]

/-- Witness for claim C3 at concrete inputs. -/
theorem claim_c3_witness :
    (App.generate_resource_config
        { original_text := "", operation := some "DELETE",
          resource_type := some "AWS::S3::Bucket" }).error =
      some "Identifier is required for DELETE operation" :=
  (claim_c3_error_paths
      { original_text := "", operation := some "DELETE",
        resource_type := some "AWS::S3::Bucket" }
      {} none "").2.2.1 (Or.inr (Or.inr rfl)) rfl rfl

/-- Claim C4: for UPDATE requests with an identifier (and, per the generator's
check order, a resource type), empty properties yield the empty-properties
error, and otherwise the configuration's patch document has exactly one
replace entry per property in insertion order with path slash-key. -/
theorem claim_c4_update_patch (pr : App.ParsedRequest)
    (hop : pr.operation = some "UPDATE") (hrt : falsyOpt pr.resource_type = false)
    (hid : falsyOpt pr.identifier = false) :
    (pr.properties = [] →
      (App.generate_resource_config pr).error =
        some "No properties specified for UPDATE operation") ∧
    (pr.properties ≠ [] →
      App.generate_resource_config pr =
        { operation := some "UPDATE", type_name := some (pr.resource_type.getD ""),
          identifier := pr.identifier,
          patch_document :=
            some (pr.properties.map
              (fun kv => App.PatchEntry.mk "replace" ("/" ++ kv.1) kv.2)) }) := by
  have hfo : falsyOpt pr.operation = false := by rw [hop]; rfl
  constructor
  · intro hp
    have hpe : pr.properties.isEmpty = true := List.isEmpty_iff.mpr hp
    simp [App.generate_resource_config, hfo, hrt, hop, hid, hpe]
    rfl
  · intro hp
    have hpe : pr.properties.isEmpty = false := by
      cases hq : pr.properties.isEmpty with
      | true => exact absurd (List.isEmpty_iff.mp hq) hp
      | false => rfl
    simp [App.generate_resource_config, hfo, hrt, hop, hid, hpe]
    rfl

/-- Witness for claim C4 at a concrete UPDATE request. -/
theorem claim_c4_witness :
    App.generate_resource_config
        { original_text := "", operation := some "UPDATE",
          resource_type := some "AWS::S3::Bucket", identifier := some "b1",
          properties := [("Tag", Value.str "x")] } =
      { operation := some "UPDATE", type_name := some "AWS::S3::Bucket",
        identifier := some "b1",
        patch_document := some [App.PatchEntry.mk "replace" "/Tag" (Value.str "x")] } :=
  (claim_c4_update_patch
      { original_text := "", operation := some "UPDATE",
        resource_type := some "AWS::S3::Bucket", identifier := some "b1",
        properties := [("Tag", Value.str "x")] }
      rfl rfl rfl).2 (by simp)

/-- Claim C5: for every non-error configuration and every result whose
operation_status is FAILED, render produces the failure message carrying the
result's error_code and status_message, regardless of the configuration's
operation kind; the FAILED check precedes every operation-specific branch, in
both interface variants. -/
theorem claim_c5_failed_render (cfg : App.ResourceConfig) (ccfg : Ccapi.CcapiConfig)
    (ip : Option String) (r : App.OperationResult) (ec sm : String)
    (h1 : cfg.error = none) (h2 : r.operation_status = some "FAILED")
    (h3 : r.error_code = some ec) (h4 : r.status_message = some sm)
    (h5 : ccfg.error = none) :
    (App.generate_response cfg (some r) =
      "The " ++ optStr cfg.operation ++ " operation for " ++ optStr cfg.type_name ++
        " failed with error code '" ++ ec ++ "'. " ++ sm) ∧
    (∃ p q, App.generate_response cfg (some r) = p ++ (ec ++ q)) ∧
    (∃ p q, App.generate_response cfg (some r) = p ++ (sm ++ q)) ∧
    (∃ p q, Ccapi.generate_response ip ccfg (some r) = p ++ (ec ++ q)) ∧
    (∃ p q, Ccapi.generate_response ip ccfg (some r) = p ++ (sm ++ q)) := by
  have hfalsy : App.resultFalsy (some r) = false := by
    simp [App.resultFalsy, App.OperationResult.isEmptyDict, h2]
  have happ : App.generate_response cfg (some r) =
      "The " ++ optStr cfg.operation ++ " operation for " ++ optStr cfg.type_name ++
        " failed with error code '" ++ ec ++ "'. " ++ sm := by
    simp [App.generate_response, h1, hfalsy, h2, h3, h4]
  have hcc : Ccapi.generate_response ip ccfg (some r) =
      "The " ++ (r.operation.getD "CREATE") ++ " operation for the " ++ optStr ccfg.type_name ++
        " resource failed.\n- Resource identifier: " ++ r.identifier.getD "" ++
        "\n- Error code: " ++ ec ++ "\n- Error message: " ++ sm := by
    simp [Ccapi.generate_response, h5, hfalsy, h2, h3, h4]
  refine ⟨happ, ?_, ?_, ?_, ?_⟩
  · refine ⟨"The " ++ optStr cfg.operation ++ " operation for " ++ optStr cfg.type_name ++
      " failed with error code '", "'. " ++ sm, ?_⟩
    rw [happ]
    simp [String.append_assoc]
  · refine ⟨"The " ++ optStr cfg.operation ++ " operation for " ++ optStr cfg.type_name ++
      " failed with error code '" ++ ec ++ "'. ", "", ?_⟩
    rw [happ]
    simp [String.append_assoc]
  · refine ⟨"The " ++ (r.operation.getD "CREATE") ++ " operation for the " ++
      optStr ccfg.type_name ++ " resource failed.\n- Resource identifier: " ++
      r.identifier.getD "" ++ "\n- Error code: ",
      "\n- Error message: " ++ sm, ?_⟩
    rw [hcc]
    simp [String.append_assoc]
  · refine ⟨"The " ++ (r.operation.getD "CREATE") ++ " operation for the " ++
      optStr ccfg.type_name ++ " resource failed.\n- Resource identifier: " ++
      r.identifier.getD "" ++ "\n- Error code: " ++ ec ++ "\n- Error message: ",
      "", ?_⟩
    rw [hcc]
    simp [String.append_assoc]

/-- Witness for claim C5 at a concrete FAILED result. -/
theorem claim_c5_witness :
    App.generate_response
        { operation := some "CREATE", type_name := some "AWS::S3::Bucket" }
        (some { operation_status := some "FAILED", error_code := some "AlreadyExists",
                status_message := some "bucket taken" }) =
      "The CREATE operation for AWS::S3::Bucket failed with error code 'AlreadyExists'. bucket taken" :=
  (claim_c5_failed_render
      { operation := some "CREATE", type_name := some "AWS::S3::Bucket" }
      {} none
      { operation_status := some "FAILED", error_code := some "AlreadyExists",
        status_message := some "bucket taken" }
      "AlreadyExists" "bucket taken" rfl rfl rfl rfl rfl).1

/-- Claim C6 counterexample: a CREATE ParsedRequest with a non-empty
resource_name whose extracted properties also bind the Name key; the
generator's properties merge overwrites the name entry, so the desired state
does not include the resource_name under Name (and the schema-unaware
generator never uses a schema identifier key). -/
theorem claim_c6_counterexample :
    (App.generate_resource_config c6pr).desired_state = some [("Name", Value.str "bar")] ∧
    dictGet [("Name", Value.str "bar")] "Name" ≠ some (Value.str "foo") := by
  constructor
  · rfl
  · intro h
    have h' : some (Value.str "bar") = some (Value.str "foo") := h
    have hs : Value.str "bar" = Value.str "foo" := Option.some.inj h'
    have hb : ("bar" : String) = "foo" := by injection hs
    exact absurd hb (by decide)

/-- Claim C6 amended: for every CREATE ParsedRequest with a set resource type
and a non-empty resource_name, the generator (which is schema-unaware and
always uses the generic Name key) places resource_name under Name, and the
desired state retains it whenever the extracted properties do not themselves
bind the Name key. -/
theorem claim_c6_amended (pr : App.ParsedRequest) (name : String)
    (hop : pr.operation = some "CREATE") (hrt : falsyOpt pr.resource_type = false)
    (hname : pr.resource_name = some name) (hne : name.isEmpty = false)
    (hprops : ∀ kv ∈ pr.properties, kv.1 ≠ "Name") :
    ∃ ds, (App.generate_resource_config pr).desired_state = some ds ∧
      dictGet ds "Name" = some (Value.str name) := by
  have hfo : falsyOpt pr.operation = false := by rw [hop]; rfl
  have hfn : falsyOpt pr.resource_name = false := by rw [hname]; exact hne
  refine ⟨dictUpdate [("Name", Value.str name)] pr.properties, ?_, ?_⟩
  · have hfn2 : falsyOpt (some name) = false := hne
    simp [App.generate_resource_config, hfo, hrt, hop, hname, hfn2]
    try rfl
  · rw [dictGet_dictUpdate_notin _ _ _ hprops]
    simp [dictGet]

/-- Witness for the amended claim C6 at a concrete request. -/
theorem claim_c6_amended_witness :
    ∃ ds,
      (App.generate_resource_config
          { original_text := "", operation := some "CREATE",
            resource_type := some "AWS::S3::Bucket", resource_name := some "foo",
            properties := [], identifier := none }).desired_state = some ds ∧
      dictGet ds "Name" = some (Value.str "foo") :=
  claim_c6_amended
    { original_text := "", operation := some "CREATE",
      resource_type := some "AWS::S3::Bucket", resource_name := some "foo",
      properties := [], identifier := none }
    "foo" rfl rfl rfl rfl (by simp)

/-- Claim C7: required-field validation is valid exactly when every required
name is a key of the configuration, and otherwise returns exactly one error
message comma-joining the missing names in the schema's declared order. -/
theorem claim_c7_validate_required (required : List String) (typeName : String)
    (config : List (String × Value)) :
    ((Ccapi.validate_resource_config (some required) typeName config).valid = true ↔
      ∀ p ∈ required, (dictGet config p).isSome = true) ∧
    ((Ccapi.validate_resource_config (some required) typeName config).valid = false →
      (Ccapi.validate_resource_config (some required) typeName config).errors =
        ["Missing required properties: " ++
          String.intercalate ", " (required.filter (fun p => (dictGet config p).isNone))]) := by
  have key : (required.filter (fun p => (dictGet config p).isNone)) = [] ↔
      ∀ p ∈ required, (dictGet config p).isSome = true := by
    rw [List.filter_eq_nil_iff]
    constructor
    · intro h p hp
      have hnp := h p hp
      cases hq : dictGet config p with
      | none => rw [hq] at hnp; simp at hnp
      | some v => simp
    · intro h p hp
      have hsp := h p hp
      cases hq : dictGet config p with
      | none => rw [hq] at hsp; simp at hsp
      | some v => simp [hq]
  cases hm : (required.filter (fun p => (dictGet config p).isNone)).isEmpty with
  | true =>
    have hnil : (required.filter (fun p => (dictGet config p).isNone)) = [] :=
      List.isEmpty_iff.mp hm
    constructor
    · simp [Ccapi.validate_resource_config, hm]
      exact key.mp hnil
    · intro hv
      simp [Ccapi.validate_resource_config, hm] at hv
  | false =>
    have hne : ¬(required.filter (fun p => (dictGet config p).isNone)) = [] := by
      intro hc
      rw [List.isEmpty_iff.mpr hc] at hm
      cases hm
    constructor
    · constructor
      · intro hv
        simp [Ccapi.validate_resource_config, hm] at hv
      · intro hr
        exact absurd (key.mpr hr) hne
    · intro _
      simp [Ccapi.validate_resource_config, hm]

/-- Witness for claim C7 at a concrete configuration missing one name. -/
theorem claim_c7_witness :
    (Ccapi.validate_resource_config (some ["A"]) "AWS::S3::Bucket" []).errors =
      ["Missing required properties: A"] :=
  (claim_c7_validate_required ["A"] "AWS::S3::Bucket" []).2 rfl

theorem mem_keys_template_fold (required : List String) (io : Bool)
    (ptypes : List (String × Ccapi.CProp)) :
    ∀ (acc : List (String × Value)) (k : String),
      (k ∈ (ptypes.foldl
        (fun t pp =>
          if required.contains pp.1 || io then
            dictSet t pp.1 (Ccapi.generate_default_value pp.2)
          else t) acc).map Prod.fst) ↔
      (k ∈ acc.map Prod.fst ∨
        (k ∈ ptypes.map Prod.fst ∧ (required.contains k || io) = true)) := by
  induction ptypes with
  | nil =>
    intro acc k
    simp
  | cons pp rest ih =>
    intro acc k
    rw [List.foldl_cons]
    by_cases hc : (required.contains pp.1 || io) = true
    · rw [if_pos hc, ih, mem_keys_dictSet]
      simp only [List.map_cons, List.mem_cons]
      constructor
      · rintro ((hacc | hk) | hrest)
        · exact Or.inl hacc
        · subst hk
          exact Or.inr ⟨Or.inl rfl, hc⟩
        · exact Or.inr ⟨Or.inr hrest.1, hrest.2⟩
      · rintro (hacc | ⟨hk | hrest, hcond⟩)
        · exact Or.inl (Or.inl hacc)
        · exact Or.inl (Or.inr hk)
        · exact Or.inr ⟨hrest, hcond⟩
    · rw [if_neg hc, ih]
      simp only [List.map_cons, List.mem_cons]
      constructor
      · rintro (hacc | hrest)
        · exact Or.inl hacc
        · exact Or.inr ⟨Or.inr hrest.1, hrest.2⟩
      · rintro (hacc | ⟨hk | hrest, hcond⟩)
        · exact Or.inl hacc
        · exact absurd (hk ▸ hcond) hc
        · exact Or.inr ⟨hrest, hcond⟩

/-- Claim C8: with a schema available and include_optional false, the
template's key set is exactly the required-property set, provided every
required property appears in the property-type map. -/
theorem claim_c8_template_required_keys (s : Ccapi.SchemaData)
    (hreq : ∀ r ∈ s.required, r ∈ s.ptypes.map Prod.fst) (k : String) :
    (k ∈ (Ccapi.generate_resource_template (some s) false).map Prod.fst ↔ k ∈ s.required) := by
  unfold Ccapi.generate_resource_template
  rw [mem_keys_template_fold]
  simp only [List.map_nil, List.not_mem_nil, false_or, Bool.or_false]
  constructor
  · rintro ⟨hks, hcont⟩
    exact List.elem_iff.mp hcont
  · intro hk
    exact ⟨hreq k hk, List.elem_iff.mpr hk⟩

/-- Witness for claim C8 at a concrete schema. -/
theorem claim_c8_witness :
    ("B" ∈ (Ccapi.generate_resource_template
        (some { ptypes := [("A", { type := some "string" }), ("B", { type := some "object" })],
                required := ["B"] }) false).map Prod.fst ↔ "B" ∈ (["B"] : List String)) :=
  claim_c8_template_required_keys
    { ptypes := [("A", { type := some "string" }), ("B", { type := some "object" })],
      required := ["B"] }
    (by simp) "B"

/-- Claim C10: the resource_name and identifier values parse_request extracts
contain no upper-case letters for any input text, because the patterns are
matched against, and captured from, the lower-cased copy of the text. -/
theorem claim_c10_lowercase_extraction (text : String) :
    (∀ nm, (App.parse_request text).resource_name = some nm →
      ∀ c ∈ nm.data, c.isUpper = false) ∧
    (∀ idf, (App.parse_request text).identifier = some idf →
      ∀ c ∈ idf.data, c.isUpper = false) := by
  constructor
  · intro nm h c hc
    have hrn : (reSearchCapture App.nameToks (lowerChars text.data)).map String.mk = some nm := h
    cases hcap : reSearchCapture App.nameToks (lowerChars text.data) with
    | none => rw [hcap] at hrn; cases hrn
    | some cap =>
      rw [hcap] at hrn
      simp only [Option.map_some'] at hrn
      have hnm : String.mk cap = nm := Option.some.inj hrn
      have hcc : c ∈ cap := by
        rw [← hnm] at hc
        exact hc
      exact mem_lowerChars_isUpper_false text.data c
        (reSearchCapture_mem App.nameToks (lowerChars text.data) cap hcap c hcc)
  · intro idf h c hc
    have hi :
        (if (App.detectOperation text.data = some "GET" ||
              App.detectOperation text.data = some "UPDATE" ||
              App.detectOperation text.data = some "DELETE") then
          App.extractIdentifier text.data
        else none) = some idf := h
    split at hi
    · have hii : (reSearchCapture App.identToks (lowerChars text.data)).map String.mk =
          some idf := hi
      cases hcap : reSearchCapture App.identToks (lowerChars text.data) with
      | none => rw [hcap] at hii; cases hii
      | some cap =>
        rw [hcap] at hii
        simp only [Option.map_some'] at hii
        have hnm : String.mk cap = idf := Option.some.inj hii
        have hcc : c ∈ cap := by
          rw [← hnm] at hc
          exact hc
        exact mem_lowerChars_isUpper_false text.data c
          (reSearchCapture_mem App.identToks (lowerChars text.data) cap hcap c hcc)
    · cases hi

/-- Witness for claim C10: a text with an upper-case name yields the
lower-cased extraction. -/
theorem claim_c10_witness : ∀ c ∈ ("mybucket" : String).data, c.isUpper = false :=
  (claim_c10_lowercase_extraction "Create a bucket named MyBucket").1 "mybucket" rfl

theorem braceSpanGreedy_decomp (cs inner : List Char) (h : braceSpanGreedy cs = some inner) :
    ∃ pre suf, cs = pre ++ lbraceChar :: (inner ++ rbraceChar :: suf) ∧
      lbraceChar ∉ pre ∧ rbraceChar ∉ suf := by
  unfold braceSpanGreedy at h
  cases hd : cs.dropWhile (fun c => !(c = lbraceChar)) with
  | nil => simp only [hd] at h; cases h
  | cons d afterL =>
    simp only [hd] at h
    have hdl : d = lbraceChar := by
      have hf := dropWhile_head_false (fun c => !(c = lbraceChar)) cs d afterL hd
      simpa using hf
    cases hr : afterL.reverse.dropWhile (fun c => !(c = rbraceChar)) with
    | nil => simp only [hr] at h; cases h
    | cons e revInner =>
      simp only [hr] at h
      have hinner : revInner.reverse = inner := Option.some.inj h
      have hel : e = rbraceChar := by
        have hf := dropWhile_head_false (fun c => !(c = rbraceChar)) afterL.reverse e revInner hr
        simpa using hf
      have h1 : cs = cs.takeWhile (fun c => !(c = lbraceChar)) ++ (d :: afterL) := by
        conv_lhs => rw [← List.takeWhile_append_dropWhile (fun c => !(c = lbraceChar)) cs]
        rw [hd]
      have h2 : afterL.reverse =
          afterL.reverse.takeWhile (fun c => !(c = rbraceChar)) ++ (e :: revInner) := by
        conv_lhs =>
          rw [← List.takeWhile_append_dropWhile (fun c => !(c = rbraceChar)) afterL.reverse]
        rw [hr]
      have h3 : afterL = revInner.reverse ++
          e :: (afterL.reverse.takeWhile (fun c => !(c = rbraceChar))).reverse := by
        have h4 := congrArg List.reverse h2
        rw [List.reverse_reverse] at h4
        conv_lhs => rw [h4]
        simp [List.append_assoc]
      refine ⟨cs.takeWhile (fun c => !(c = lbraceChar)),
              (afterL.reverse.takeWhile (fun c => !(c = rbraceChar))).reverse, ?_, ?_, ?_⟩
      · conv_lhs => rw [h1, h3]
        rw [hdl, hel, hinner]
      · intro hmem
        have hs := mem_takeWhile_sat _ _ _ hmem
        simp at hs
      · intro hmem
        rw [List.mem_reverse] at hmem
        have hs := mem_takeWhile_sat _ _ _ hmem
        simp at hs

/-- Claim C9 counterexample: on an input whose FIRST non-greedily matched
brace span parses (after repair) to a JSON object, the code nevertheless
leaves the properties untouched, because its pattern is greedy and the greedy
span does not parse; the claimed merge of the non-greedy span's pairs does
not happen. -/
theorem claim_c9_counterexample :
    specNonGreedyBraceSpan c9ctext.data = some ("\"A\": \"one\"".data) ∧
    jsonParse (repairJson ("\"A\": \"one\"".data)) =
      some (Value.obj [("A", Value.str "one")]) ∧
    (App.parse_request c9ctext).properties = [] ∧
    dictGet (App.parse_request c9ctext).properties "A" = none := by
  exact ⟨rfl, rfl, rfl, rfl⟩

/-- Claim C9 amended: the quasi-JSON step takes the GREEDY brace span - from
the first opening brace to the last closing brace of the text - repairs it
(quoting bare keys, stripping trailing commas, in that order), parses it as
JSON, and merges the resulting pairs into the collected properties,
overwriting same-named keys; on parse failure (or no brace span) parse
returns with only the properties already collected, affecting no other field
and raising nothing. -/
theorem claim_c9_amended (text : String) :
    ((App.parse_request text).properties =
      App.jsonMergeStep text.data (App.kvProps text.data)) ∧
    (braceSpanGreedy text.data = none →
      (App.parse_request text).properties = App.kvProps text.data) ∧
    (∀ inner, braceSpanGreedy text.data = some inner →
      (∃ pre suf, text.data = pre ++ lbraceChar :: (inner ++ rbraceChar :: suf) ∧
        lbraceChar ∉ pre ∧ rbraceChar ∉ suf) ∧
      (∀ kvs, jsonParse (repairJson inner) = some (Value.obj kvs) →
        (App.parse_request text).properties = dictUpdate (App.kvProps text.data) kvs) ∧
      (jsonParse (repairJson inner) = none →
        (App.parse_request text).properties = App.kvProps text.data)) := by
  refine ⟨rfl, ?_, ?_⟩
  · intro hnone
    show App.jsonMergeStep text.data (App.kvProps text.data) = _
    simp only [App.jsonMergeStep, hnone]
  · intro inner hsome
    refine ⟨braceSpanGreedy_decomp text.data inner hsome, ?_, ?_⟩
    · intro kvs hp
      show App.jsonMergeStep text.data (App.kvProps text.data) = _
      simp only [App.jsonMergeStep, hsome, hp]
    · intro hp
      show App.jsonMergeStep text.data (App.kvProps text.data) = _
      simp only [App.jsonMergeStep, hsome, hp]

/-- Witness for the amended claim C9 at a concrete text whose greedy span
parses successfully. -/
theorem claim_c9_amended_witness :
    (App.parse_request c9wtext).properties =
      dictUpdate (App.kvProps c9wtext.data) [("K", Value.str "v")] :=
  (((claim_c9_amended c9wtext).2.2 ("\"K\": \"v\"".data) rfl).2.1 [("K", Value.str "v")] rfl)

theorem dictGet_extract_fold (cs : List Char) (k : String) (hk : Ccapi.extractProp cs k = none) :
    ∀ (props : List String) (acc : List (String × Value)),
      dictGet (props.foldl
        (fun ps p =>
          match Ccapi.extractProp cs p with
          | some v => dictSet ps p (Value.str (String.mk v))
          | none => ps) acc) k = dictGet acc k := by
  intro props
  induction props with
  | nil => intro acc; rfl
  | cons p rest ih =>
    intro acc
    rw [List.foldl_cons]
    by_cases hp : p = k
    · subst hp
      simp only [hk]
      exact ih acc
    · cases he : Ccapi.extractProp cs p with
      | none =>
        simp only [he]
        exact ih acc
      | some v =>
        simp only [he]
        rw [ih (dictSet acc p (Value.str (String.mk v))),
            dictGet_dictSet_ne acc k p (Value.str (String.mk v)) hp]

theorem s3Extras_c1 (d : List (String × Value)) (hd : dictGet d "BucketName" = none) :
    Ccapi.s3Extras c1text.data d =
      dictSet (dictSet d "BucketName" (Value.str "my-test-bucket"))
        "VersioningConfiguration" (Value.obj [("Status", Value.str "Enabled")]) := by
  unfold Ccapi.s3Extras
  rw [hd]
  rfl

theorem ccapi_config_desired_state (schemaRequired : Option (List String))
    (pr : Ccapi.CcapiParsed) (ds : List (String × Value))
    (h : (Ccapi.generate_resource_config schemaRequired pr).desired_state = some ds) :
    ds = pr.params := by
  unfold Ccapi.generate_resource_config at h
  cases he : pr.error with
  | some e =>
    simp only [he] at h
    cases h
  | none =>
    simp only [he] at h
    split at h
    · cases h
    · split at h
      · cases h
      · exact (Option.some.inj h).symm

/-- Claim C1: on Scenario 1's text, the classifier yields operation CREATE
and resource type AWS S3 Bucket, and for any available schema the
schema-aware parse extracts BucketName my-test-bucket and the enabled
VersioningConfiguration, which every successfully generated CREATE
configuration's desired_state therefore includes. -/
theorem claim_c1_scenario (propNames required : List String) :
    (App.parse_request c1text).operation = some "CREATE" ∧
    (App.parse_request c1text).resource_type = some "AWS::S3::Bucket" ∧
    (Ccapi.parse_request (some propNames) c1text).error = none ∧
    dictGet (Ccapi.parse_request (some propNames) c1text).params "BucketName" =
      some (Value.str "my-test-bucket") ∧
    dictGet (Ccapi.parse_request (some propNames) c1text).params "VersioningConfiguration" =
      some (Value.obj [("Status", Value.str "Enabled")]) ∧
    (∀ ds, (Ccapi.generate_resource_config (some required)
        (Ccapi.parse_request (some propNames) c1text)).desired_state = some ds →
      dictGet ds "BucketName" = some (Value.str "my-test-bucket") ∧
      dictGet ds "VersioningConfiguration" = some (Value.obj [("Status", Value.str "Enabled")])) := by
  have hparams : (Ccapi.parse_request (some propNames) c1text).params =
      Ccapi.s3Extras c1text.data
        (propNames.foldl
          (fun ps p =>
            match Ccapi.extractProp c1text.data p with
            | some v => dictSet ps p (Value.str (String.mk v))
            | none => ps) []) := rfl
  have hloop : dictGet
      (propNames.foldl
        (fun ps p =>
          match Ccapi.extractProp c1text.data p with
          | some v => dictSet ps p (Value.str (String.mk v))
          | none => ps) []) "BucketName" = none := by
    rw [dictGet_extract_fold c1text.data "BucketName" rfl propNames []]
    rfl
  have hbn : dictGet (Ccapi.parse_request (some propNames) c1text).params "BucketName" =
      some (Value.str "my-test-bucket") := by
    rw [hparams, s3Extras_c1 _ hloop,
        dictGet_dictSet_ne _ "BucketName" "VersioningConfiguration" _ (by decide)]
    exact dictGet_dictSet_self _ _ _
  have hvc : dictGet (Ccapi.parse_request (some propNames) c1text).params
      "VersioningConfiguration" = some (Value.obj [("Status", Value.str "Enabled")]) := by
    rw [hparams, s3Extras_c1 _ hloop]
    exact dictGet_dictSet_self _ _ _
  refine ⟨rfl, rfl, rfl, hbn, hvc, ?_⟩
  intro ds hds
  have hdsp := ccapi_config_desired_state (some required)
    (Ccapi.parse_request (some propNames) c1text) ds hds
  rw [hdsp]
  exact ⟨hbn, hvc⟩

/-- Witness for claim C1 with the empty schema: the generated configuration's
desired_state carries both extracted pairs. -/
theorem claim_c1_witness :
    dictGet [("BucketName", Value.str "my-test-bucket"),
             ("VersioningConfiguration", Value.obj [("Status", Value.str "Enabled")])]
        "BucketName" = some (Value.str "my-test-bucket") ∧
    dictGet [("BucketName", Value.str "my-test-bucket"),
             ("VersioningConfiguration", Value.obj [("Status", Value.str "Enabled")])]
        "VersioningConfiguration" = some (Value.obj [("Status", Value.str "Enabled")]) :=
  (claim_c1_scenario [] []).2.2.2.2.2
    [("BucketName", Value.str "my-test-bucket"),
     ("VersioningConfiguration", Value.obj [("Status", Value.str "Enabled")])] rfl
